import Mathlib

/-!
Verification development for the facto repository (append-only, tamper-evident
event-audit infrastructure).

The Go and TypeScript sources are shallowly embedded as executable Lean
definitions:
- byte strings are lists of naturals (each hold a value below 256);
- 32-bit arithmetic is natural-number arithmetic reduced modulo 2 ^ 32;
- SHA-256 (used by the Merkle engine and by the session digest) is implemented
  concretely; SHA3-256 and Ed25519 (used only opaquely, through calls whose
  results are compared or returned) are universally quantified parameters of
  the theorems that mention them;
- fallible or panicking code paths return Option, with none for a Go panic;
- JSON documents are a first-order inductive, and the two JSON serializers of
  the repository (Go encoding/json marshalling of string-keyed maps, and the
  JavaScript JSON.stringify with an array replacer) are modelled as separate
  executable functions.

Namespaces mirror the source layout: Processor for src/server/processor,
Api for the query/verification service handlers and its storage layer,
Sdk for the TypeScript SDK.
-/

/-! ## Bytes, 32-bit words, hex, base64, UTF-8 -/

/-- 2 ^ 32, the modulus of 32-bit words. -/
def M32 : Nat := 4294967296

/-- 32-bit addition. -/
def add32 (a b : Nat) : Nat := (a + b) % M32

/-- 32-bit right rotation. -/
def rotr32 (n x : Nat) : Nat := ((x >>> n) ||| (x <<< (32 - n))) % M32

/-- Bitwise complement within 32 bits. -/
def not32 (x : Nat) : Nat := x ^^^ 4294967295

/-- Encode one Unicode code point as UTF-8 bytes, as Go []byte(s) and the
JavaScript TextEncoder do. -/
def charUtf8 (c : Char) : List Nat :=
  let n := c.toNat
  if n < 128 then [n]
  else if n < 2048 then [192 ||| (n >>> 6), 128 ||| (n &&& 63)]
  else if n < 65536 then
    [224 ||| (n >>> 12), 128 ||| ((n >>> 6) &&& 63), 128 ||| (n &&& 63)]
  else
    [240 ||| (n >>> 18), 128 ||| ((n >>> 12) &&& 63),
     128 ||| ((n >>> 6) &&& 63), 128 ||| (n &&& 63)]

/-- The UTF-8 bytes of a string: the Go conversion []byte(s). -/
def strBytes (s : String) : List Nat := (s.data.map charUtf8).flatten

/-- One lowercase hexadecimal digit. -/
def hexDigit (n : Nat) : Char :=
  if n < 10 then Char.ofNat (48 + n) else Char.ofNat (87 + n)

/-- Lowercase hex encoding of a byte list: Go hex.EncodeToString. -/
def hexEncode (bs : List Nat) : String :=
  String.mk ((bs.map (fun b => [hexDigit (b / 16), hexDigit (b % 16)])).flatten)

/-- The numeric value of one hexadecimal digit, if any. -/
def hexDigitVal (c : Char) : Option Nat :=
  if 48 ≤ c.toNat ∧ c.toNat ≤ 57 then some (c.toNat - 48)
  else if 97 ≤ c.toNat ∧ c.toNat ≤ 102 then some (c.toNat - 87)
  else if 65 ≤ c.toNat ∧ c.toNat ≤ 70 then some (c.toNat - 55)
  else none

/-- Go hex.DecodeString with the error ignored, as every call site of the
repository does (leftBytes, _ := hex.DecodeString(left)): the bytes of all
complete valid digit pairs up to the first invalid pair or odd tail. -/
def hexDecode : List Char → List Nat
  | a :: b :: rest =>
    match hexDigitVal a, hexDigitVal b with
    | some x, some y => (16 * x + y) :: hexDecode rest
    | _, _ => []
  | _ => []

/-! ## SHA-256 (concrete) -/

/-- The SHA-256 round constants. -/
def sha256K : List Nat :=
  [1116352408, 1899447441, 3049323471, 3921009573, 961987163,
   1508970993, 2453635748, 2870763221, 3624381080, 310598401,
   607225278, 1426881987, 1925078388, 2162078206, 2614888103,
   3248222580, 3835390401, 4022224774, 264347078, 604807628,
   770255983, 1249150122, 1555081692, 1996064986, 2554220882,
   2821834349, 2952996808, 3210313671, 3336571891, 3584528711,
   113926993, 338241895, 666307205, 773529912, 1294757372,
   1396182291, 1695183700, 1986661051, 2177026350, 2456956037,
   2730485921, 2820302411, 3259730800, 3345764771, 3516065817,
   3600352804, 4094571909, 275423344, 430227734, 506948616,
   659060556, 883997877, 958139571, 1322822218, 1537002063,
   1747873779, 1955562222, 2024104815, 2227730452, 2361852424,
   2428436474, 2756734187, 3204031479, 3329325298]

/-- The SHA-256 initial hash state. -/
def sha256H0 : List Nat :=
  [1779033703, 3144134277, 1013904242,
   2773480762, 1359893119, 2600822924,
   528734635, 1541459225]

/-- Split a list into chunks of n elements, with a fuel argument bounding the
number of chunks so that the recursion is structural (kernel-reducible). -/
def chunksFuel (n : Nat) : Nat → List Nat → List (List Nat)
  | _, [] => []
  | 0, _ => []
  | fuel + 1, l => l.take n :: chunksFuel n fuel (l.drop n)

/-- Split a list into chunks of n elements (n > 0 expected). -/
def chunks (n : Nat) (l : List Nat) : List (List Nat) :=
  chunksFuel n l.length l

/-- Big-endian packing of four bytes into one 32-bit word. -/
def word32 : List Nat → Nat
  | [a, b, c, d] => ((a * 256 + b) * 256 + c) * 256 + d
  | _ => 0

/-- Big-endian unpacking of one 32-bit word into four bytes. -/
def word32Bytes (w : Nat) : List Nat :=
  [(w / 16777216) % 256, (w / 65536) % 256, (w / 256) % 256, w % 256]

/-- SHA-256 message padding: append 0x80, zero bytes to 56 mod 64, and the
big-endian 64-bit bit length. -/
def sha256Pad (msg : List Nat) : List Nat :=
  let len := msg.length
  let zeros := (119 - len % 64) % 64
  let bitLen := len * 8
  msg ++ [128] ++ List.replicate zeros 0 ++
    [(bitLen >>> 56) % 256, (bitLen >>> 48) % 256, (bitLen >>> 40) % 256,
     (bitLen >>> 32) % 256, (bitLen >>> 24) % 256, (bitLen >>> 16) % 256,
     (bitLen >>> 8) % 256, bitLen % 256]

/-- Extend the 16-word message schedule by n further words. -/
def sha256Extend : List Nat → Nat → List Nat
  | w, 0 => w
  | w, n + 1 =>
    let s0 :=
      let x := w.getD (w.length - 15) 0
      rotr32 7 x ^^^ rotr32 18 x ^^^ (x >>> 3)
    let s1 :=
      let x := w.getD (w.length - 2) 0
      rotr32 17 x ^^^ rotr32 19 x ^^^ (x >>> 10)
    sha256Extend (w ++ [add32 (add32 s1 (w.getD (w.length - 7) 0))
                        (add32 s0 (w.getD (w.length - 16) 0))]) n

/-- One SHA-256 compression round on the eight-word state. -/
def sha256Round (st : List Nat) (kw : Nat × Nat) : List Nat :=
  match st with
  | [a, b, c, d, e, f, g, h] =>
    let S1 := rotr32 6 e ^^^ rotr32 11 e ^^^ rotr32 25 e
    let ch := (e &&& f) ^^^ (not32 e &&& g)
    let t1 := add32 h (add32 S1 (add32 ch (add32 kw.1 kw.2)))
    let S0 := rotr32 2 a ^^^ rotr32 13 a ^^^ rotr32 22 a
    let mj := (a &&& b) ^^^ (a &&& c) ^^^ (b &&& c)
    let t2 := add32 S0 mj
    [add32 t1 t2, a, b, c, add32 d t1, e, f, g]
  | st => st

/-- Compress one 64-byte block into the running state. -/
def sha256Block (st : List Nat) (block : List Nat) : List Nat :=
  let w := sha256Extend ((chunks 4 block).map word32) 48
  let st2 := (sha256K.zip w).foldl sha256Round st
  (st.zip st2).map (fun p => add32 p.1 p.2)

/-- SHA-256 of a byte list, as a 32-byte list. -/
def sha256 (msg : List Nat) : List Nat :=
  (((chunks 64 (sha256Pad msg)).foldl sha256Block sha256H0).map word32Bytes).flatten

/-! ## Base64 (Go base64.StdEncoding.DecodeString) -/

/-- The value of one standard-alphabet base64 character. -/
def b64Val (c : Char) : Option Nat :=
  if 65 ≤ c.toNat ∧ c.toNat ≤ 90 then some (c.toNat - 65)
  else if 97 ≤ c.toNat ∧ c.toNat ≤ 122 then some (c.toNat - 71)
  else if 48 ≤ c.toNat ∧ c.toNat ≤ 57 then some (c.toNat + 4)
  else if c = '+' then some 62
  else if c = '/' then some 63
  else none

/-- Decode complete groups of four base64 characters; the final group may end
in "=" (two data bytes) or "==" (one data byte). Returns none on any invalid
character, bad padding, or a length not a multiple of four — the cases in
which Go base64.StdEncoding.DecodeString reports an error. -/
def b64Groups : List Char → Option (List Nat)
  | [] => some []
  | [a, b, '=', '='] =>
    match b64Val a, b64Val b with
    | some x, some y => some [(x <<< 2 ||| (y >>> 4)) % 256]
    | _, _ => none
  | [a, b, c, '='] =>
    match b64Val a, b64Val b, b64Val c with
    | some x, some y, some z =>
      some [(x <<< 2 ||| (y >>> 4)) % 256, ((y <<< 4) ||| (z >>> 2)) % 256]
    | _, _, _ => none
  | a :: b :: c :: d :: rest =>
    match b64Val a, b64Val b, b64Val c, b64Val d, b64Groups rest with
    | some x, some y, some z, some u, some tail =>
      some ((x <<< 2 ||| (y >>> 4)) % 256 ::
            ((y <<< 4) ||| (z >>> 2)) % 256 ::
            ((z <<< 6) ||| u) % 256 :: tail)
    | _, _, _, _, _ => none
  | _ => none

/-- Go base64.StdEncoding.DecodeString. Carriage returns and newlines are
skipped before grouping, as the Go decoder does. -/
def base64Decode (s : String) : Option (List Nat) :=
  b64Groups (s.data.filter (fun c => c ≠ '\r' ∧ c ≠ '\n'))

/-- The 64-zero initial prev-hash of every chain. -/
def zeros64 : String := String.mk (List.replicate 64 '0')

/-! ## JSON documents and the two serializers of the repository -/

/-- A JSON document. Objects are insertion-ordered association lists (the
serializers decide key order); num is an integer (Go int64), fnum a float
(Go float64), kept exact as a rational. -/
inductive Json where
  | null
  | bool (b : Bool)
  | num (n : Int)
  | fnum (q : Rat)
  | str (s : String)
  | arr (elems : List Json)
  | obj (fields : List (String × Json))

/-- Decimal rendering of a float value. Renders terminating decimals in
shortest form (the case of every float of this development); values whose
denominator is not a power of ten fall back to a fraction rendering. This
approximates the shortest-round-trip formatting of Go strconv and of
JavaScript Number serialization; no theorem below depends on the digits. -/
def ratJsonRepr (q : Rat) : String :=
  if q.den = 1 then toString q.num
  else
    let sign := if q.num < 0 then "-" else ""
    match (List.range 18).find? (fun k => 10 ^ k % q.den = 0) with
    | some k =>
      let scaled := q.num.natAbs * (10 ^ k / q.den)
      let fracDigits := toString (scaled % 10 ^ k)
      sign ++ toString (scaled / 10 ^ k) ++ "." ++
        String.mk (List.replicate (k - fracDigits.length) '0') ++ fracDigits
    | none => sign ++ toString q.num.natAbs ++ "/" ++ toString q.den

/-- Escape one character as Go encoding/json does with its default HTML
escaping: quote, backslash, newline, carriage return and tab get two-character
escapes, other control characters become an u-escape, and the angle brackets,
ampersand and the U+2028 and U+2029 separators are HTML-escaped. -/
def goEscapeChar (c : Char) : List Char :=
  if c = '"' then ['\\', '"']
  else if c = '\\' then ['\\', '\\']
  else if c = '\n' then ['\\', 'n']
  else if c = '\r' then ['\\', 'r']
  else if c = '\t' then ['\\', 't']
  else if c.toNat < 32 then
    ['\\', 'u', '0', '0', hexDigit (c.toNat / 16), hexDigit (c.toNat % 16)]
  else if c = '<' then ['\\', 'u', '0', '0', '3', 'c']
  else if c = '>' then ['\\', 'u', '0', '0', '3', 'e']
  else if c = '&' then ['\\', 'u', '0', '0', '2', '6']
  else if c.toNat = 8232 then ['\\', 'u', '2', '0', '2', '8']
  else if c.toNat = 8233 then ['\\', 'u', '2', '0', '2', '9']
  else [c]

/-- A Go JSON string literal. -/
def goQuote (s : String) : String :=
  "\"" ++ String.mk (s.data.map goEscapeChar).flatten ++ "\""

/-- Escape one character as the JavaScript JSON.stringify QuoteJSONString
operation does: no HTML escaping, and backspace and form feed get their own
two-character escapes. -/
def jsEscapeChar (c : Char) : List Char :=
  if c = '"' then ['\\', '"']
  else if c = '\\' then ['\\', '\\']
  else if c.toNat = 8 then ['\\', 'b']
  else if c.toNat = 12 then ['\\', 'f']
  else if c = '\n' then ['\\', 'n']
  else if c = '\r' then ['\\', 'r']
  else if c = '\t' then ['\\', 't']
  else if c.toNat < 32 then
    ['\\', 'u', '0', '0', hexDigit (c.toNat / 16), hexDigit (c.toNat % 16)]
  else [c]

/-- A JavaScript JSON string literal. -/
def jsQuote (s : String) : String :=
  "\"" ++ String.mk (s.data.map jsEscapeChar).flatten ++ "\""

mutual
/-- Rendering of a JSON document by Go encoding/json, field order taken from
the association list (the callers below pre-sort it, mirroring the sorted-key
iteration json.Marshal performs on Go maps). -/
def serializeGo : Json → String
  | .null => "null"
  | .bool b => if b then "true" else "false"
  | .num n => toString n
  | .fnum q => ratJsonRepr q
  | .str s => goQuote s
  | .arr xs => "[" ++ serializeGoList xs ++ "]"
  | .obj fs => "\x7b" ++ serializeGoFields fs ++ "\x7d"

def serializeGoList : List Json → String
  | [] => ""
  | [x] => serializeGo x
  | x :: y :: rest => serializeGo x ++ "," ++ serializeGoList (y :: rest)

def serializeGoFields : List (String × Json) → String
  | [] => ""
  | [(k, v)] => goQuote k ++ ":" ++ serializeGo v
  | (k, v) :: f :: rest =>
    goQuote k ++ ":" ++ serializeGo v ++ "," ++ serializeGoFields (f :: rest)
end

mutual
/-- Rendering of a JSON document by JavaScript JSON.stringify (no space
argument), field order taken from the association list as-is. -/
def serializeJS : Json → String
  | .null => "null"
  | .bool b => if b then "true" else "false"
  | .num n => toString n
  | .fnum q => ratJsonRepr q
  | .str s => jsQuote s
  | .arr xs => "[" ++ serializeJSList xs ++ "]"
  | .obj fs => "\x7b" ++ serializeJSFields fs ++ "\x7d"

def serializeJSList : List Json → String
  | [] => ""
  | [x] => serializeJS x
  | x :: y :: rest => serializeJS x ++ "," ++ serializeJSList (y :: rest)

def serializeJSFields : List (String × Json) → String
  | [] => ""
  | [(k, v)] => jsQuote k ++ ":" ++ serializeJS v
  | (k, v) :: f :: rest =>
    jsQuote k ++ ":" ++ serializeJS v ++ "," ++ serializeJSFields (f :: rest)
end

/-- Code-point-wise lexicographic comparison on character lists. On the hex
and snake_case ASCII keys in scope this coincides with the byte order of Go
sort.Strings and with the default JavaScript sort. -/
def strLtb : List Char → List Char → Bool
  | [], [] => false
  | [], _ :: _ => true
  | _ :: _, [] => false
  | a :: as, b :: bs =>
    if a.toNat < b.toNat then true
    else if b.toNat < a.toNat then false
    else strLtb as bs

/-- Lexicographic string comparison (kernel-computable). -/
def strLt (a b : String) : Bool := strLtb a.data b.data

/-- Insert a field into a key-sorted field list (byte-wise lexicographic key
order, the order of Go sort.Strings; map keys are unique, so stability is
irrelevant). -/
def insertField (p : String × Json) : List (String × Json) → List (String × Json)
  | [] => [p]
  | q :: rest => if strLt p.1 q.1 then p :: q :: rest else q :: insertField p rest

/-- Sort a field list by key. -/
def sortFieldsByKey : List (String × Json) → List (String × Json)
  | [] => []
  | p :: rest => insertField p (sortFieldsByKey rest)

mutual
/-- Key-sort every object of a JSON document, at every nesting level: the
order in which Go json.Marshal serializes map keys (the sortedMap helper in
the query service pre-sorts nested maps; json.Marshal sorts them either way,
including maps nested inside arrays). -/
def sortJson : Json → Json
  | .obj fs => .obj (sortFieldsByKey (sortJsonFields fs))
  | .arr xs => .arr (sortJsonList xs)
  | j => j

def sortJsonList : List Json → List Json
  | [] => []
  | x :: rest => sortJson x :: sortJsonList rest

def sortJsonFields : List (String × Json) → List (String × Json)
  | [] => []
  | (k, v) :: rest => (k, sortJson v) :: sortJsonFields rest
end

/-- First field with the given key, if any. -/
def lookupField (k : String) : List (String × Json) → Option Json
  | [] => none
  | (k2, v) :: rest => if k2 = k then some v else lookupField k rest

/-- Keep exactly the fields named in props, in props order (JSON.stringify
PropertyList key selection for one object). -/
def reorderFields (props : List String) (fs : List (String × Json)) :
    List (String × Json) :=
  props.filterMap (fun k => (lookupField k fs).map (fun v => (k, v)))

mutual
/-- The effect of a JSON.stringify array replacer (PropertyList): at every
object of the document — every nesting level — only the properties named in
the list are kept, in list order; array elements are all kept. The source
filters keys during serialization and this model filters before serializing;
the two commute, hence serialize the same string. -/
def filterJson (props : List String) : Json → Json
  | .obj fs => .obj (reorderFields props (filterJsonFields props fs))
  | .arr xs => .arr (filterJsonList props xs)
  | j => j

def filterJsonList (props : List String) : List Json → List Json
  | [] => []
  | x :: rest => filterJson props x :: filterJsonList props rest

def filterJsonFields (props : List String) : List (String × Json) →
    List (String × Json)
  | [] => []
  | (k, v) :: rest => (k, filterJson props v) :: filterJsonFields props rest
end

/-- JSON.stringify with an array replacer. -/
def stringifyWithProps (props : List String) (j : Json) : String :=
  serializeJS (filterJson props j)

/-- An element of a Merkle inclusion proof: sibling hash plus its position
relative to the current node ("left" or "right"). Declared identically in the
processor and in the query service. -/
structure ProofElement where
  hash : String
  position : String
deriving DecidableEq

/-! ## Query / verification service (src/server/api): data model -/

namespace Api

/-- execution_meta of an API event (ExecutionMetaResponse): optional fields
are pointers in Go, hence Option here. Tags are an insertion-ordered
association list. -/
structure ExecutionMetaResponse where
  model_id : Option String
  model_hash : Option String
  temperature : Option Rat
  seed : Option Int
  max_tokens : Option Int
  tool_calls : List Json
  sdk_version : String
  sdk_language : String
  tags : List (String × String)

/-- proof of an API event (ProofResponse). signature and public_key hold
base64 text; prev_hash and event_hash hold hex text. -/
structure ProofResponse where
  signature : String
  public_key : String
  prev_hash : String
  event_hash : String
deriving DecidableEq

/-- An event as the query service represents it (EventResponse). -/
structure EventResponse where
  facto_id : String
  agent_id : String
  session_id : String
  parent_facto_id : Option String
  action_type : String
  status : String
  input_data : List (String × Json)
  output_data : List (String × Json)
  execution_meta : ExecutionMetaResponse
  proof : ProofResponse
  started_at : Int
  completed_at : Int

/-! ### Canonical form (buildCanonicalForm in the handlers file) -/

/-- The nested execution_meta mapping of the canonical form, in the insertion
order of the source: model_id only when non-nil, seed always (null when nil),
sdk_version, temperature only when non-nil, tool_calls. model_hash,
max_tokens, tags and sdk_language are never inserted. -/
def canonicalExecMeta (e : EventResponse) : List (String × Json) :=
  (match e.execution_meta.model_id with
   | some m => [("model_id", Json.str m)]
   | none => []) ++
  [("seed", match e.execution_meta.seed with
            | some n => Json.num n
            | none => Json.null),
   ("sdk_version", Json.str e.execution_meta.sdk_version)] ++
  (match e.execution_meta.temperature with
   | some t => [("temperature", Json.fnum t)]
   | none => []) ++
  [("tool_calls", Json.arr e.execution_meta.tool_calls)]

/-- The canonical mapping, fields in the insertion order of the source
(facto_id is inserted last; serialization re-sorts). parent_facto_id
serializes as null when nil. -/
def canonicalMap (e : EventResponse) : List (String × Json) :=
  [("action_type", Json.str e.action_type),
   ("agent_id", Json.str e.agent_id),
   ("completed_at", Json.num e.completed_at),
   ("execution_meta", Json.obj (canonicalExecMeta e)),
   ("input_data", Json.obj e.input_data),
   ("output_data", Json.obj e.output_data),
   ("parent_facto_id", match e.parent_facto_id with
                       | some p => Json.str p
                       | none => Json.null),
   ("prev_hash", Json.str e.proof.prev_hash),
   ("session_id", Json.str e.session_id),
   ("started_at", Json.num e.started_at),
   ("status", Json.str e.status),
   ("facto_id", Json.str e.facto_id)]

/-- Go buildCanonicalForm: build the mapping, sort keys at every nesting
level, serialize with encoding/json. -/
def buildCanonicalForm (e : EventResponse) : String :=
  serializeGo (sortJson (Json.obj (canonicalMap e)))

/-! ### Single-event verification (verifyHash / verifySignature) -/

/-- verifyHash: recompute the canonical form, hash it with SHA3-256, hex it,
compare with the recorded event_hash. The SHA3-256-and-hex step is the
sha3hex parameter. -/
def verifyHash (sha3hex : String → String) (e : EventResponse) : Bool :=
  sha3hex (buildCanonicalForm e) == e.proof.event_hash

/-- verifySignature: base64-decode the public key (must be 32 bytes) and the
signature (must be 64 bytes); on any decode error or length mismatch return
false, otherwise Ed25519-verify the canonical bytes. Ed25519 verification is
the edv parameter (public key bytes, message bytes, signature bytes). -/
def verifySignature (edv : List Nat → List Nat → List Nat → Bool)
    (e : EventResponse) : Bool :=
  match base64Decode e.proof.public_key with
  | none => false
  | some pubKeyBytes =>
    if pubKeyBytes.length ≠ 32 then false
    else
      match base64Decode e.proof.signature with
      | none => false
      | some sigBytes =>
        if sigBytes.length ≠ 64 then false
        else edv pubKeyBytes (strBytes (buildCanonicalForm e)) sigBytes

/-- The POST /v1/verify handler result: the (hash_valid, signature_valid)
pair (chain_valid is always reported unknown). -/
def verifyEventModel (sha3hex : String → String)
    (edv : List Nat → List Nat → List Nat → Bool) (e : EventResponse) :
    Bool × Bool :=
  (verifyHash sha3hex e, verifySignature edv e)

/-! ### Whole-chain verification (the VerifyChain handler) -/

/-- Insert an event into a list sorted ascending by completed_at. -/
def insertByCompleted (e : EventResponse) :
    List EventResponse → List EventResponse
  | [] => [e]
  | x :: xs =>
    if e.completed_at < x.completed_at then e :: x :: xs
    else x :: insertByCompleted e xs

/-- Sort events ascending by completed_at. The source uses sort.Slice with
the strict completed_at comparison; ties have no specified order there, and
this model fixes one. -/
def sortByCompletedAt : List EventResponse → List EventResponse
  | [] => []
  | x :: xs => insertByCompleted x (sortByCompletedAt xs)

/-- The chain-break error entry. The source slices the first 16 bytes of both
hex strings; the strings in scope are ASCII, so bytes and characters agree. -/
def chainErrMsg (factoID expected got : String) : String :=
  "Chain broken at event: " ++ factoID ++ " (expected prev_hash: " ++
    expected.take 16 ++ "..., got: " ++ got.take 16 ++ "...)"

/-- The chain-integrity loop of VerifyChain: walk the sorted events with an
expected prev-hash, flag false and record an error on each mismatch, advance
the expectation to the event event_hash either way. Building the error
message slices expected[:16] and prev_hash[:16]; Go panics when either string
is shorter than 16 bytes, modelled as none. -/
def chainLoop (expected : String) : List EventResponse →
    Option (Bool × List String)
  | [] => some (true, [])
  | e :: rest =>
    if e.proof.prev_hash = expected then
      chainLoop e.proof.event_hash rest
    else if 16 ≤ expected.length ∧ 16 ≤ e.proof.prev_hash.length then
      match chainLoop e.proof.event_hash rest with
      | some (_, errs) =>
        some (false, chainErrMsg e.facto_id expected e.proof.prev_hash :: errs)
      | none => none
    else none

/-- The three check flags of the chain-verification report. -/
structure ChainVerifyChecks where
  all_hashes_valid : Bool
  all_signatures_valid : Bool
  chain_integrity_valid : Bool
deriving DecidableEq

/-- The chain-verification report (ChainVerifyResponse). -/
structure ChainVerifyResponse where
  valid : Bool
  event_count : Nat
  checks : ChainVerifyChecks
  first_event : String
  last_event : String
  session_hash : String
  errors : List String
deriving DecidableEq

/-- The GET /v1/verify/chain handler on the fetched session events: none
models the two ways no report is produced — the empty session (a 404 reply)
and a panic inside the chain loop. Otherwise: sort by completed_at ascending,
check every hash and signature (error entries in event order), run the chain
loop from the 64-zero expectation, digest the concatenated event hashes with
SHA-256 for session_hash, and report. -/
def verifyChainModel (sha3hex : String → String)
    (edv : List Nat → List Nat → List Nat → Bool) :
    List EventResponse → Option ChainVerifyResponse
  | [] => none
  | e :: rest =>
    match sortByCompletedAt (e :: rest) with
    | [] => none
    | s0 :: srest =>
      let sorted := s0 :: srest
      match chainLoop zeros64 sorted with
      | none => none
      | some (chainOk, chainErrs) =>
        let hashErrs := (sorted.filter (fun ev => ¬ verifyHash sha3hex ev)).map
          (fun ev => "Hash invalid for event: " ++ ev.facto_id)
        let sigErrs := (sorted.filter (fun ev => ¬ verifySignature edv ev)).map
          (fun ev => "Signature invalid for event: " ++ ev.facto_id)
        let allH := sorted.all (verifyHash sha3hex)
        let allS := sorted.all (verifySignature edv)
        some
          { valid := allH && allS && chainOk
            event_count := sorted.length
            checks :=
              { all_hashes_valid := allH
                all_signatures_valid := allS
                chain_integrity_valid := chainOk }
            first_event := s0.facto_id
            last_event := srest.getLastD s0 |>.facto_id
            session_hash := hexEncode (sha256 (strBytes
              (String.join (sorted.map (fun ev => ev.proof.event_hash)))))
            errors := hashErrs ++ sigErrs ++ chainErrs }

end Api

/-- Duplicate the last node when a Merkle level has odd length: the
append-the-last-node padding step present in both Merkle builders. The
default of getLastD is unreachable (the builders only pad nonempty levels). -/
def dupLastIfOdd (l : List String) : List String :=
  if l.length % 2 = 1 then l ++ [l.getLastD ""] else l

theorem dupLastIfOdd_length (l : List String) :
    (dupLastIfOdd l).length =
      if l.length % 2 = 1 then l.length + 1 else l.length := by
  unfold dupLastIfOdd
  split <;> simp

namespace Api

/-- hashPair: SHA-256 over the concatenation of the two hex-decoded nodes,
hex-encoded. Declared with this body in the processor and in the query
service alike. -/
def hashPair (left right : String) : String :=
  hexEncode (sha256 (hexDecode left.data ++ hexDecode right.data))

/-- One pairing pass of the query-service Merkle loop. The loop body runs
only on even-length levels (it pads them first); on a lone odd element Go
would index out of bounds, and this model drops it. -/
def pairUp : List String → List String
  | a :: b :: rest => hashPair a b :: pairUp rest
  | _ => []

theorem pairUp_length : ∀ l : List String, (pairUp l).length = l.length / 2
  | [] => by simp [pairUp]
  | [_] => by simp [pairUp]
  | _ :: _ :: rest => by
    simp only [pairUp, List.length_cons, pairUp_length rest]
    omega

/-- The while-loop of buildMerkleTree in the query service: while more than
one node remains, pad the level to even length and pair adjacent nodes. -/
def merkleLoop : List String → String
  | [] => ""
  | [x] => x
  | a :: b :: rest => merkleLoop (pairUp (dupLastIfOdd (a :: b :: rest)))
  termination_by l => l.length
  decreasing_by
    simp only [pairUp_length, dupLastIfOdd_length, List.length_cons]
    split <;> omega

/-- The root of the query-service buildMerkleTree: the empty string for an
empty input, otherwise the final node of the level loop. -/
def merkleRoot (hashes : List String) : String :=
  if hashes.isEmpty then "" else merkleLoop hashes

/-! ### Reading events back (buildEventResponse in the API storage layer) -/

/-- buildEventResponse: assemble an EventResponse from scanned columns.
Optional columns were stored as Go zero values, and every zero scan result
(empty string, zero number) maps back to nil. The json.Unmarshal calls on
the input/output blobs and on the tool-call blob are the parseObj / parseArr
parameters; a nil unmarshal result (error or JSON null — none here) is
replaced by the empty object or empty array, and a nil tags map by the empty
map. signature and public_key columns hold the UTF-8 bytes of the base64
text, so the Go string conversion is the identity here; the started_at and
completed_at columns are written as time.Unix(0, ns) and read back with
UnixNano, also the identity on the nanosecond count. -/
def buildEventResponse
    (parseObj : String → Option (List (String × Json)))
    (parseArr : String → Option (List Json))
    (factoID agentID sessionID parentFactoID actionType status : String)
    (inputData outputData : String)
    (modelID modelHash : String) (temperature : Rat) (seed : Int)
    (maxTokens : Int) (toolCalls : String)
    (sdkVersion sdkLanguage : String) (tags : List (String × String))
    (signature publicKey : String) (prevHash eventHash : String)
    (startedAt completedAt : Int) : EventResponse :=
  { facto_id := factoID
    agent_id := agentID
    session_id := sessionID
    parent_facto_id := if parentFactoID ≠ "" then some parentFactoID else none
    action_type := actionType
    status := status
    input_data := (parseObj inputData).getD []
    output_data := (parseObj outputData).getD []
    execution_meta :=
      { model_id := if modelID ≠ "" then some modelID else none
        model_hash := if modelHash ≠ "" then some modelHash else none
        temperature := if temperature ≠ 0 then some temperature else none
        seed := if seed ≠ 0 then some seed else none
        max_tokens := if maxTokens ≠ 0 then some maxTokens else none
        tool_calls := (parseArr toolCalls).getD []
        sdk_version := sdkVersion
        sdk_language := sdkLanguage
        tags := tags }
    proof :=
      { signature := signature
        public_key := publicKey
        prev_hash := prevHash
        event_hash := eventHash }
    started_at := startedAt
    completed_at := completedAt }

end Api

/-! ## Batching processor (src/server/processor) -/

namespace Processor

/-- ExecutionMeta of an event on the bus (consumer.go). -/
structure ExecutionMeta where
  model_id : Option String
  model_hash : Option String
  temperature : Option Rat
  seed : Option Int
  max_tokens : Option Int
  tool_calls : List Json
  sdk_version : String
  sdk_language : String
  tags : List (String × String)

/-- Proof of an event on the bus. -/
structure Proof where
  signature : String
  public_key : String
  prev_hash : String
  event_hash : String

/-- FactoEvent: an event as the processor decodes it from NATS. -/
structure FactoEvent where
  facto_id : String
  agent_id : String
  session_id : String
  parent_facto_id : Option String
  action_type : String
  status : String
  input_data : List (String × Json)
  output_data : List (String × Json)
  execution_meta : ExecutionMeta
  proof : Proof
  started_at : Int
  completed_at : Int

/-! ### Merkle engine (merkle part of consumer.go) -/

/-- hashPair: SHA-256 over the concatenation of the two hex-decoded nodes,
hex-encoded. -/
def hashPair (left right : String) : String :=
  hexEncode (sha256 (hexDecode left.data ++ hexDecode right.data))

/-- One pairing pass of buildTree: left := nodes[i], right := nodes[i+1] when
in range, otherwise right := nodes[i] (the lone tail pairs with itself). In
operation the input is always even-length, so the self-pair arm never runs. -/
def pairNodes : List String → List String
  | [] => []
  | [a] => [hashPair a a]
  | a :: b :: rest => hashPair a b :: pairNodes rest

theorem pairNodes_length :
    ∀ l : List String, (pairNodes l).length = (l.length + 1) / 2
  | [] => by simp [pairNodes]
  | [_] => by simp [pairNodes]
  | _ :: _ :: rest => by
    simp only [pairNodes, List.length_cons, pairNodes_length rest]
    omega

/-- The duplicate-the-last-parent step of buildTree: applied only to levels
with more than one node. -/
def extendParents (p : List String) : List String :=
  if 1 < p.length ∧ p.length % 2 = 1 then p ++ [p.getLastD ""] else p

theorem extendParents_length (p : List String) :
    (extendParents p).length =
      if 1 < p.length ∧ p.length % 2 = 1 then p.length + 1 else p.length := by
  unfold extendParents
  split <;> simp

/-- buildTree of consumer.go, restricted to the node hashes: pair the nodes,
pad an odd parent level, recurse until one node remains. Go recurses forever
on an empty node list; the arm is unreachable (BuildMerkleTree always passes
a nonempty list) and returns the empty string here. -/
def buildTree : List String → String
  | [] => ""
  | [x] => x
  | a :: b :: rest => buildTree (extendParents (pairNodes (a :: b :: rest)))
  termination_by l => l.length
  decreasing_by
    simp only [extendParents_length, pairNodes_length, List.length_cons]
    split <;> omega

/-- The stack of levels the processor tree links with parent pointers: the
(padded) leaf level, then each pairing result, each level padded to even
length exactly as buildTree does, ending at the single root node. -/
def buildLevels : List String → List (List String)
  | [] => [[]]
  | [x] => [[x]]
  | a :: b :: rest =>
    (a :: b :: rest) :: buildLevels (extendParents (pairNodes (a :: b :: rest)))
  termination_by l => l.length
  decreasing_by
    simp only [extendParents_length, pairNodes_length, List.length_cons]
    split <;> omega

/-- The hex SHA-256 of the empty input: hex.EncodeToString(sha256.New().Sum(nil)),
the root BuildMerkleTree gives the empty leaf list. -/
def emptyTreeRoot : String := hexEncode (sha256 [])

/-- The root of BuildMerkleTree: the empty-input digest for no leaves;
otherwise the leaves are padded to even length up front (a single leaf is
padded too) and buildTree runs. -/
def Root (hashes : List String) : String :=
  if hashes.isEmpty then emptyTreeRoot else buildTree (dupLastIfOdd hashes)

/-- The leaf-to-root walk of GetProof, on the level stack instead of parent
pointers. In the linked tree every pairing level has even length and all
nodes are distinct allocations, so the node at index i of a level has its
parent at index i / 2 of the next level, its sibling at the partner index
(the pointer comparison parent.Left == node is exactly i % 2 == 0), and the
sibling always exists — position names the side the sibling is on. The walk
stops at the root level (nil Parent). -/
def getProofWalk : List (List String) → Nat → List ProofElement
  | [], _ => []
  | [_], _ => []
  | lvl :: l2 :: rest, idx =>
    { hash := lvl.getD (if idx % 2 = 0 then idx + 1 else idx - 1) ""
      position := if idx % 2 = 0 then "right" else "left" } ::
      getProofWalk (l2 :: rest) (idx / 2)

/-- GetProof on a tree built from the given leaves: nil for an out-of-range
index (the bound is the padded leaf count, the length of t.leaves), the walk
otherwise. The empty tree has no leaves, so every index is out of range. -/
def GetProof (hashes : List String) (index : Nat) : List ProofElement :=
  if hashes ≠ [] ∧ index < (dupLastIfOdd hashes).length then
    getProofWalk (buildLevels (dupLastIfOdd hashes)) index
  else []

/-- The proof fold of VerifyProof: hash the sibling on its recorded side into
the running hash. -/
def foldProof (cur : String) : List ProofElement → String
  | [] => cur
  | el :: rest =>
    foldProof (if el.position = "left" then hashPair el.hash cur
               else hashPair cur el.hash) rest

/-- VerifyProof: fold the proof from the leaf and compare with the root. -/
def VerifyProof (leafHash : String) (proof : List ProofElement)
    (root : String) : Bool :=
  foldProof leafHash proof == root

end Processor

namespace Processor

/-! ### Consumer buffers and flush (consumer.go) -/

/-- The two buffers the consumer owns: the decoded events and their NATS
messages (opaque ids here). handleMessage appends to both together, flush
clears both together. -/
structure ConsumerState where
  events : List FactoEvent
  messages : List Nat

/-- The record StoreMerkleRoot receives from flush (bucket_time and the
derived date partition are wall-clock values outside the model). -/
structure MerkleRootRecord where
  root_hash : String
  event_count : Nat
  first_facto_id : String
  last_facto_id : String
  event_hashes : List String
deriving DecidableEq

/-- The observable effects of one flush call: whether StoreBatch ran, the
ACKed and NAKed message ids, the Merkle-root write attempted (with its
record) and whether it succeeded. -/
structure FlushEffects where
  storeBatchCalled : Bool
  acked : List Nat
  nakked : List Nat
  merkleWriteAttempted : Option MerkleRootRecord
  merklePersisted : Bool
deriving DecidableEq

/-- flush of consumer.go, with the storage outcomes as oracle parameters:
storeOk is whether the three concurrent projection batches of StoreBatch all
succeed, merkleOk whether the merkle_roots insert succeeds. An empty event
buffer returns immediately, before any work. Otherwise the Merkle root is
computed over the event hashes in buffer order; if StoreBatch fails every
buffered message is NAKed and the root is not written; if it succeeds the
Merkle-root record is written (its own failure is only logged) and every
buffered message is ACKed. Both buffers are cleared at the end of the
non-empty path. -/
def flush (storeOk merkleOk : Bool) (st : ConsumerState) :
    FlushEffects × ConsumerState :=
  match st.events with
  | [] =>
    ({ storeBatchCalled := false, acked := [], nakked := [],
       merkleWriteAttempted := none, merklePersisted := false }, st)
  | e0 :: erest =>
    let hashes := (e0 :: erest).map (fun e => e.proof.event_hash)
    let merkleRoot := Root hashes
    if storeOk then
      ({ storeBatchCalled := true, acked := st.messages, nakked := [],
         merkleWriteAttempted := some
           { root_hash := merkleRoot
             event_count := (e0 :: erest).length
             first_facto_id := e0.facto_id
             last_facto_id := (erest.getLastD e0).facto_id
             event_hashes := hashes }
         merklePersisted := merkleOk },
       { events := [], messages := [] })
    else
      ({ storeBatchCalled := true, acked := [], nakked := st.messages,
         merkleWriteAttempted := none, merklePersisted := false },
       { events := [], messages := [] })

/-- handleMessage of consumer.go on the buffers: a message whose JSON decodes
(the decoded oracle) is appended to both buffers; an undecodable one is NAKed
and appended to neither. The flush-when-full call that may follow is the
callers (the loop) concern, modelled by flush above. Returns the new state
and whether the message entered the buffers. -/
def handleMessage (decoded : Option FactoEvent) (msg : Nat)
    (st : ConsumerState) : ConsumerState × Bool :=
  match decoded with
  | none => (st, false)
  | some ev =>
    ({ events := st.events ++ [ev], messages := st.messages ++ [msg] }, true)

/-! ### Storage rows (storage.go of the processor) -/

/-- The events_by_session row written by storeBySessionBatch, with the
preprocessing of StoreBatch inlined: optional meta fields flatten to Go zero
values (empty string, zero), the input and output maps are stored as their
json.Marshal bytes (keys sorted), and the float64-to-float32 narrowing of
temperature is the abstract f32 parameter (the narrowing fixes 0). This
projection has no model_hash, seed, max_tokens or tool_calls columns.
signature and public_key store the UTF-8 bytes of the base64 text
([]byte(...) of the strings); started_at and completed_at the nanosecond
timestamps. -/
structure SessionRow where
  session_id : String
  completed_at : Int
  facto_id : String
  agent_id : String
  action_type : String
  status : String
  event_hash : String
  input_data : String
  output_data : String
  model_id : String
  temperature : Rat
  sdk_version : String
  sdk_language : String
  tags : List (String × String)
  signature : String
  public_key : String
  prev_hash : String
  parent_facto_id : String
  started_at : Int

/-- Build the events_by_session row for one event. -/
def storeBySessionRow (f32 : Rat → Rat) (e : FactoEvent) : SessionRow :=
  { session_id := e.session_id
    completed_at := e.completed_at
    facto_id := e.facto_id
    agent_id := e.agent_id
    action_type := e.action_type
    status := e.status
    event_hash := e.proof.event_hash
    input_data := serializeGo (sortJson (Json.obj e.input_data))
    output_data := serializeGo (sortJson (Json.obj e.output_data))
    model_id := e.execution_meta.model_id.getD ""
    temperature :=
      match e.execution_meta.temperature with
      | some t => f32 t
      | none => 0
    sdk_version := e.execution_meta.sdk_version
    sdk_language := e.execution_meta.sdk_language
    tags := e.execution_meta.tags
    signature := e.proof.signature
    public_key := e.proof.public_key
    prev_hash := e.proof.prev_hash
    parent_facto_id := e.parent_facto_id.getD ""
    started_at := e.started_at }

/-- The EventResponse carrying the same field values as a bus event: the
shape in which the verification endpoints see the event exactly as it was
signed (FactoEvent and EventResponse share every canonical field). -/
def FactoEvent.toEventResponse (e : FactoEvent) : Api.EventResponse :=
  { facto_id := e.facto_id
    agent_id := e.agent_id
    session_id := e.session_id
    parent_facto_id := e.parent_facto_id
    action_type := e.action_type
    status := e.status
    input_data := e.input_data
    output_data := e.output_data
    execution_meta :=
      { model_id := e.execution_meta.model_id
        model_hash := e.execution_meta.model_hash
        temperature := e.execution_meta.temperature
        seed := e.execution_meta.seed
        max_tokens := e.execution_meta.max_tokens
        tool_calls := e.execution_meta.tool_calls
        sdk_version := e.execution_meta.sdk_version
        sdk_language := e.execution_meta.sdk_language
        tags := e.execution_meta.tags }
    proof :=
      { signature := e.proof.signature
        public_key := e.proof.public_key
        prev_hash := e.proof.prev_hash
        event_hash := e.proof.event_hash }
    started_at := e.started_at
    completed_at := e.completed_at }

end Processor

namespace Api

/-- The GetSessionEvents scan of one events_by_session row: the projection
has no model_hash, seed, max_tokens or tool_calls columns, so the source
passes "" for model_hash, 0 for seed and max_tokens and the literal "[]" for
tool_calls into buildEventResponse, whatever was originally stored. -/
def getSessionEventsRow (parseObj : String → Option (List (String × Json)))
    (parseArr : String → Option (List Json)) (r : Processor.SessionRow) :
    EventResponse :=
  buildEventResponse parseObj parseArr r.facto_id r.agent_id r.session_id
    r.parent_facto_id r.action_type r.status r.input_data r.output_data
    r.model_id "" r.temperature 0 0 "[]" r.sdk_version r.sdk_language r.tags
    r.signature r.public_key r.prev_hash r.event_hash r.started_at
    r.completed_at

/-- Store an event into the events_by_session projection and read it back
through the session walk: the round trip of GetSessionEvents. -/
def sessionReadBack (f32 : Rat → Rat)
    (parseObj : String → Option (List (String × Json)))
    (parseArr : String → Option (List Json)) (e : Processor.FactoEvent) :
    EventResponse :=
  getSessionEventsRow parseObj parseArr (Processor.storeBySessionRow f32 e)

end Api

/-! ## TypeScript SDK (src/sdk/typescript) -/

namespace Sdk

/-- execution_meta of the wire event (FactoEventWire in models.ts): every
optional field explicitly nullable. -/
structure ExecutionMetaWire where
  model_id : Option String
  model_hash : Option String
  temperature : Option Rat
  seed : Option Int
  max_tokens : Option Int
  tool_calls : List Json
  sdk_version : String
  sdk_language : String
  tags : List (String × String)

/-- proof of the wire event. -/
structure ProofWire where
  signature : String
  public_key : String
  prev_hash : String
  event_hash : String

/-- FactoEventWire: the snake_case wire shape the SDK signs and publishes. -/
structure FactoEventWire where
  facto_id : String
  agent_id : String
  session_id : String
  parent_facto_id : Option String
  action_type : String
  status : String
  input_data : List (String × Json)
  output_data : List (String × Json)
  execution_meta : ExecutionMetaWire
  proof : ProofWire
  started_at : Int
  completed_at : Int

/-- The execution_meta record CryptoProvider.buildCanonicalForm builds, in
insertion order: model_id only when non-null, seed always (null stays null),
sdk_version, temperature only when non-null, tool_calls. -/
def canonicalExecMeta (e : FactoEventWire) : List (String × Json) :=
  (match e.execution_meta.model_id with
   | some m => [("model_id", Json.str m)]
   | none => []) ++
  [("seed", match e.execution_meta.seed with
            | some n => Json.num n
            | none => Json.null),
   ("sdk_version", Json.str e.execution_meta.sdk_version)] ++
  (match e.execution_meta.temperature with
   | some t => [("temperature", Json.fnum t)]
   | none => []) ++
  [("tool_calls", Json.arr e.execution_meta.tool_calls)]

/-- The canonical record, fields in the insertion order of crypto.ts
(facto_id last). -/
def canonicalMap (e : FactoEventWire) : List (String × Json) :=
  [("action_type", Json.str e.action_type),
   ("agent_id", Json.str e.agent_id),
   ("completed_at", Json.num e.completed_at),
   ("execution_meta", Json.obj (canonicalExecMeta e)),
   ("input_data", Json.obj e.input_data),
   ("output_data", Json.obj e.output_data),
   ("parent_facto_id", match e.parent_facto_id with
                       | some p => Json.str p
                       | none => Json.null),
   ("prev_hash", Json.str e.proof.prev_hash),
   ("session_id", Json.str e.session_id),
   ("started_at", Json.num e.started_at),
   ("status", Json.str e.status),
   ("facto_id", Json.str e.facto_id)]

/-- Insert into a lexicographically sorted string list. -/
def insertString (s : String) : List String → List String
  | [] => [s]
  | x :: xs => if strLt s x then s :: x :: xs else x :: insertString s xs

/-- Sort a string list: Array.prototype.sort with the default comparator on
the all-ASCII key names is lexicographic code-unit order. -/
def sortStrings : List String → List String
  | [] => []
  | x :: xs => insertString x (sortStrings xs)

/-- buildCanonicalForm of the TypeScript SDK:
JSON.stringify(canonical, Object.keys(canonical).sort()). The second
argument is an array replacer, a PropertyList: it selects and orders the
serialized properties of EVERY object in the document, not only the top
level. -/
def buildCanonicalForm (e : FactoEventWire) : String :=
  stringifyWithProps (sortStrings ((canonicalMap e).map Prod.fst))
    (Json.obj (canonicalMap e))

end Sdk

set_option maxRecDepth 100000

/-! ## Claim C1: the canonical form -/

/-- The event of the C1 analysis, in wire shape: the canonical fields of the
canonical-form unit test of the SDK test suite, with a non-null model_id and
a populated input_data. -/
def c1EventWire : Sdk.FactoEventWire :=
  { facto_id := "ft-test"
    agent_id := "agent-test"
    session_id := "session-test"
    parent_facto_id := none
    action_type := "test"
    status := "success"
    input_data := [("key", Json.str "value")]
    output_data := [("result", Json.str "ok")]
    execution_meta :=
      { model_id := some "gpt-4"
        model_hash := none
        temperature := none
        seed := none
        max_tokens := none
        tool_calls := []
        sdk_version := "0.1.0"
        sdk_language := "typescript"
        tags := [] }
    proof :=
      { signature := ""
        public_key := ""
        prev_hash := zeros64
        event_hash := "" }
    started_at := 1000000000
    completed_at := 1000000001 }

/-- The same event in the response shape the server canonicalizer takes. -/
def c1EventGo : Api.EventResponse :=
  { facto_id := "ft-test"
    agent_id := "agent-test"
    session_id := "session-test"
    parent_facto_id := none
    action_type := "test"
    status := "success"
    input_data := [("key", Json.str "value")]
    output_data := [("result", Json.str "ok")]
    execution_meta :=
      { model_id := some "gpt-4"
        model_hash := none
        temperature := none
        seed := none
        max_tokens := none
        tool_calls := []
        sdk_version := "0.1.0"
        sdk_language := "typescript"
        tags := [] }
    proof :=
      { signature := ""
        public_key := ""
        prev_hash := zeros64
        event_hash := "" }
    started_at := 1000000000
    completed_at := 1000000001 }

/-- C1: the claim describes one canonical form for hashing and signing, whose
execution_meta carries model_id (when non-null), seed (even when null),
sdk_version, temperature (when non-null) and tool_calls. The server
canonicalizer produces exactly that, but the SDK canonicalizer — the one that
produces the signed bytes — passes the sorted top-level key array to
JSON.stringify as an array replacer, which filters EVERY nesting level to
those twelve top-level names: its execution_meta serializes as the empty
object (no seed, no sdk_version, no tool_calls) and its input_data /
output_data lose all their keys. Evaluated at the concrete event:
the two canonical strings, and their disagreement. -/
theorem c1_canonical_divergence :
    Sdk.buildCanonicalForm c1EventWire =
      "\x7b\"action_type\":\"test\",\"agent_id\":\"agent-test\",\"completed_at\":1000000001,\"execution_meta\":\x7b\x7d,\"facto_id\":\"ft-test\",\"input_data\":\x7b\x7d,\"output_data\":\x7b\x7d,\"parent_facto_id\":null,\"prev_hash\":\"0000000000000000000000000000000000000000000000000000000000000000\",\"session_id\":\"session-test\",\"started_at\":1000000000,\"status\":\"success\"\x7d" ∧
    Api.buildCanonicalForm c1EventGo =
      "\x7b\"action_type\":\"test\",\"agent_id\":\"agent-test\",\"completed_at\":1000000001,\"execution_meta\":\x7b\"model_id\":\"gpt-4\",\"sdk_version\":\"0.1.0\",\"seed\":null,\"tool_calls\":[]\x7d,\"facto_id\":\"ft-test\",\"input_data\":\x7b\"key\":\"value\"\x7d,\"output_data\":\x7b\"result\":\"ok\"\x7d,\"parent_facto_id\":null,\"prev_hash\":\"0000000000000000000000000000000000000000000000000000000000000000\",\"session_id\":\"session-test\",\"started_at\":1000000000,\"status\":\"success\"\x7d" ∧
    Sdk.buildCanonicalForm c1EventWire ≠ Api.buildCanonicalForm c1EventGo := by
  refine ⟨by decide, by decide, by decide⟩

/-! ## Claim C5: Merkle base cases -/

/-- C5: the claim (and the specification, twice) states Root([h]) = h and
Root([]) = hex(SHA-256("")). The query-service builder satisfies the first
and violates the second (its empty root is the empty string); the processor
builder satisfies the second and violates the first: BuildMerkleTree pads an
odd leaf level BEFORE checking whether a single node remains, so a single
leaf is paired with its own duplicate and Root(["aa"]) is
SHA-256(0xaa || 0xaa) in hex, not "aa". Evaluated here at both inputs on
both builders. -/
theorem c5_merkle_base_cases :
    Processor.Root ["aa"] = Processor.hashPair "aa" "aa" ∧
    Processor.hashPair "aa" "aa" =
      "4f377ce906c6f4713d968ff2d8b7b9b5ffd0833751c8030e8f6368fd322a4de9" ∧
    Processor.Root ["aa"] ≠ "aa" ∧
    Processor.Root [] =
      "e3b0c44298fc1c149afbf4c8996fb92427ae41e4649b934ca495991b7852b855" ∧
    Api.merkleRoot ["aa"] = "aa" ∧
    Api.merkleRoot [] = "" := by
  have hpair : Processor.hashPair "aa" "aa" =
      "4f377ce906c6f4713d968ff2d8b7b9b5ffd0833751c8030e8f6368fd322a4de9" := by
    decide
  have hroot : Processor.Root ["aa"] = Processor.hashPair "aa" "aa" := by
    simp only [Processor.Root, dupLastIfOdd, List.isEmpty_cons, List.length_cons]
    norm_num
    simp only [Processor.buildTree, Processor.pairNodes, Processor.extendParents]
    norm_num
    simp only [Processor.buildTree]
  have hempty : Processor.Root [] = Processor.emptyTreeRoot := by
    simp [Processor.Root]
  refine ⟨hroot, hpair, ?_, ?_, ?_, ?_⟩
  · rw [hroot, hpair]
    decide
  · rw [hempty]
    decide
  · simp only [Api.merkleRoot, List.isEmpty_cons]
    norm_num
    simp only [Api.merkleLoop]
  · simp [Api.merkleRoot]

/-! ## Claim C9: the two Merkle builders -/

/-- The two hashPair declarations have the same body. -/
theorem hashPair_agree : Processor.hashPair = Api.hashPair := rfl

theorem dupLastIfOdd_even {l : List String} (h : l.length % 2 = 0) :
    dupLastIfOdd l = l := by
  unfold dupLastIfOdd
  rw [if_neg (by omega)]

theorem dupLastIfOdd_length_even (l : List String) :
    (dupLastIfOdd l).length % 2 = 0 := by
  rw [dupLastIfOdd_length]
  split <;> omega

theorem extendParents_eq_dup (p : List String) (h : 2 ≤ p.length) :
    Processor.extendParents p = dupLastIfOdd p := by
  unfold Processor.extendParents dupLastIfOdd
  by_cases hodd : p.length % 2 = 1
  · rw [if_pos ⟨by omega, hodd⟩, if_pos hodd]
  · rw [if_neg (fun hc => hodd hc.2), if_neg hodd]

theorem pairNodes_eq_pairUp : ∀ l : List String, l.length % 2 = 0 →
    Processor.pairNodes l = Api.pairUp l
  | [], _ => rfl
  | [_], h => by simp at h
  | a :: b :: rest, h => by
    have hrest : rest.length % 2 = 0 := by
      simp only [List.length_cons] at h
      omega
    simp only [Processor.pairNodes, Api.pairUp,
      pairNodes_eq_pairUp rest hrest, hashPair_agree]

theorem merkleLoop_step (l : List String) (h : 2 ≤ l.length) :
    Api.merkleLoop l = Api.merkleLoop (Api.pairUp (dupLastIfOdd l)) := by
  match l, h with
  | a :: b :: rest, _ => conv_lhs => rw [Api.merkleLoop]

theorem buildTree_step (l : List String) (h : 2 ≤ l.length) :
    Processor.buildTree l =
      Processor.buildTree (Processor.extendParents (Processor.pairNodes l)) := by
  match l, h with
  | a :: b :: rest, _ => conv_lhs => rw [Processor.buildTree]

/-- On an even level of at least two nodes, the processor recursion and the
query-service loop compute the same hash. -/
theorem buildTree_eq_merkleLoop (m : List String) (heven : m.length % 2 = 0)
    (h2 : 2 ≤ m.length) : Processor.buildTree m = Api.merkleLoop m := by
  have hpair := pairNodes_eq_pairUp m heven
  have hplen : (Processor.pairNodes m).length = (m.length + 1) / 2 :=
    Processor.pairNodes_length m
  rcases Nat.lt_or_ge (Processor.pairNodes m).length 2 with hsmall | hbig
  · -- a two-node level: one pairing finishes both computations
    have hm2 : m.length = 2 := by omega
    have h1 : (Processor.pairNodes m).length = 1 := by omega
    rw [buildTree_step m h2, merkleLoop_step m h2, dupLastIfOdd_even heven,
      ← hpair]
    match hp : Processor.pairNodes m, h1 with
    | [r], _ =>
      rw [show Processor.extendParents [r] = [r] by
            unfold Processor.extendParents
            rw [if_neg (by simp)]]
      rw [Processor.buildTree, Api.merkleLoop]
  · -- recurse on the padded parent level
    have hdup2 : 2 ≤ (dupLastIfOdd (Processor.pairNodes m)).length := by
      rw [dupLastIfOdd_length]
      split <;> omega
    have hdupeven := dupLastIfOdd_length_even (Processor.pairNodes m)
    have hdec : (dupLastIfOdd (Processor.pairNodes m)).length < m.length := by
      rw [dupLastIfOdd_length]
      split <;> omega
    have ih := buildTree_eq_merkleLoop (dupLastIfOdd (Processor.pairNodes m))
      hdupeven hdup2
    rw [buildTree_step m h2, extendParents_eq_dup _ hbig, ih,
      merkleLoop_step m h2, dupLastIfOdd_even heven, ← hpair,
      merkleLoop_step _ hdup2, dupLastIfOdd_even hdupeven,
      merkleLoop_step _ hbig]
  termination_by m.length

/-- C9 counterexample: the two Merkle implementations do NOT agree on every
list. At the single-leaf list ["aa"] the processor pads the leaf level to
["aa", "aa"] and hashes, while the query-service loop exits immediately and
returns "aa". (They also disagree on the empty list: the empty digest
against the empty string.) -/
theorem c9_roots_differ_on_singleton :
    Processor.Root ["aa"] ≠ Api.merkleRoot ["aa"] := by
  have h1 : Processor.Root ["aa"] = Processor.hashPair "aa" "aa" := by
    simp only [Processor.Root, dupLastIfOdd, List.isEmpty_cons, List.length_cons]
    norm_num
    simp only [Processor.buildTree, Processor.pairNodes, Processor.extendParents]
    norm_num
    simp only [Processor.buildTree]
  have h2 : Api.merkleRoot ["aa"] = "aa" := by
    simp only [Api.merkleRoot, List.isEmpty_cons]
    norm_num
    simp only [Api.merkleLoop]
  rw [h1, h2]
  decide

/-- C9 amended: the processor BuildMerkleTree root and the query-service
buildMerkleTree root agree on every leaf list with at least two leaves (they
disagree on the empty and the single-leaf list). -/
theorem c9_roots_agree_from_two (L : List String) (h : 2 ≤ L.length) :
    Processor.Root L = Api.merkleRoot L := by
  match L, h with
  | a :: b :: rest, h =>
    have hne : ¬ (a :: b :: rest).isEmpty = true := by simp
    rw [Processor.Root, Api.merkleRoot, if_neg hne, if_neg hne]
    by_cases heven : (a :: b :: rest).length % 2 = 0
    · rw [dupLastIfOdd_even heven]
      exact buildTree_eq_merkleLoop _ heven h
    · have hlen : 2 ≤ (dupLastIfOdd (a :: b :: rest)).length := by
        rw [dupLastIfOdd_length]
        split <;> simp_all
      have hdeven := dupLastIfOdd_length_even (a :: b :: rest)
      rw [buildTree_eq_merkleLoop _ hdeven hlen,
        merkleLoop_step _ hlen, dupLastIfOdd_even hdeven, merkleLoop_step _ h]

/-- C9 witness: the amended equivalence at a concrete two-leaf list. -/
theorem c9_roots_agree_witness :
    Processor.Root ["aa", "bb"] = Api.merkleRoot ["aa", "bb"] :=
  c9_roots_agree_from_two ["aa", "bb"] (by decide)

/-! ## Claim C6: Merkle inclusion proofs fold back to the root -/

theorem pairNodes_getD : ∀ (l : List String) (k : Nat),
    2 * k + 1 < l.length →
    (Processor.pairNodes l).getD k "" =
      Processor.hashPair (l.getD (2 * k) "") (l.getD (2 * k + 1) "")
  | [], _, h => by simp at h
  | [_], k, h => by simp at h
  | a :: b :: rest, 0, _ => by simp [Processor.pairNodes]
  | a :: b :: rest, k + 1, h => by
    have hr : 2 * k + 1 < rest.length := by
      simp only [List.length_cons] at h
      omega
    have e1 : (a :: b :: rest).getD (2 * (k + 1)) "" = rest.getD (2 * k) "" := by
      rw [show 2 * (k + 1) = 2 * k + 1 + 1 by omega]
      simp [List.getD_cons_succ]
    have e2 : (a :: b :: rest).getD (2 * (k + 1) + 1) "" =
        rest.getD (2 * k + 1) "" := by
      rw [show 2 * (k + 1) + 1 = 2 * k + 1 + 1 + 1 by omega]
      simp [List.getD_cons_succ]
    simp only [Processor.pairNodes, List.getD_cons_succ, e1, e2]
    exact pairNodes_getD rest k hr

theorem extendParents_getD (p : List String) (k : Nat) (h : k < p.length) :
    (Processor.extendParents p).getD k "" = p.getD k "" := by
  unfold Processor.extendParents
  split
  · rw [List.getD_eq_getElem?_getD, List.getElem?_append_left h,
      ← List.getD_eq_getElem?_getD]
  · rfl

theorem buildLevels_ne_nil (m : List String) :
    Processor.buildLevels m ≠ [] := by
  match m with
  | [] => rw [Processor.buildLevels]; simp
  | [x] => rw [Processor.buildLevels]; simp
  | a :: b :: rest => rw [Processor.buildLevels]; simp

theorem buildLevels_step (l : List String) (h : 2 ≤ l.length) :
    Processor.buildLevels l =
      l :: Processor.buildLevels
        (Processor.extendParents (Processor.pairNodes l)) := by
  match l, h with
  | a :: b :: rest, _ => rw [Processor.buildLevels]

/-- The leaf-to-root fold: on a level stack built from an even level (or from
the root level itself), folding the proof walk from the node at index i
reproduces the hash buildTree computes for that level. -/
theorem foldProof_getProofWalk (l : List String)
    (hshape : l.length = 1 ∨ (2 ≤ l.length ∧ l.length % 2 = 0)) (i : Nat)
    (hi : i < l.length) :
    Processor.foldProof (l.getD i "")
      (Processor.getProofWalk (Processor.buildLevels l) i) =
      Processor.buildTree l := by
  rcases hshape with h1 | ⟨h2, heven⟩
  · -- the root level: the walk is empty and the fold returns the leaf
    obtain ⟨x, hx⟩ : ∃ x, l = [x] := by
      match l, h1 with
      | [x], _ => exact ⟨x, rfl⟩
    subst hx
    have hi0 : i = 0 := by
      simp only [List.length_cons, List.length_nil] at hi
      omega
    subst hi0
    simp [Processor.buildLevels, Processor.getProofWalk, Processor.foldProof,
      Processor.buildTree]
  · -- an even level: one proof element, then the parent level
    have hplen : (Processor.pairNodes l).length = (l.length + 1) / 2 :=
      Processor.pairNodes_length l
    have hk : i / 2 < (Processor.pairNodes l).length := by omega
    have hknext :
        i / 2 < (Processor.extendParents (Processor.pairNodes l)).length := by
      rw [Processor.extendParents_length]
      split <;> omega
    have hnextshape :
        (Processor.extendParents (Processor.pairNodes l)).length = 1 ∨
        (2 ≤ (Processor.extendParents (Processor.pairNodes l)).length ∧
         (Processor.extendParents (Processor.pairNodes l)).length % 2 = 0) := by
      rcases Nat.lt_or_ge (Processor.pairNodes l).length 2 with hsm | hbg
      · left
        rw [Processor.extendParents_length]
        split <;> omega
      · right
        rw [extendParents_eq_dup _ hbg]
        exact ⟨by rw [dupLastIfOdd_length]; split <;> omega,
          dupLastIfOdd_length_even _⟩
    have hdec :
        (Processor.extendParents (Processor.pairNodes l)).length < l.length := by
      rw [Processor.extendParents_length]
      split <;> omega
    have ih := foldProof_getProofWalk
      (Processor.extendParents (Processor.pairNodes l)) hnextshape (i / 2)
      hknext
    obtain ⟨lv0, lvs, hlv⟩ : ∃ lv0 lvs,
        Processor.buildLevels
          (Processor.extendParents (Processor.pairNodes l)) = lv0 :: lvs := by
      match hnl : Processor.buildLevels
          (Processor.extendParents (Processor.pairNodes l)) with
      | [] => exact absurd hnl (buildLevels_ne_nil _)
      | lv0 :: lvs => exact ⟨lv0, lvs, rfl⟩
    rw [hlv] at ih
    rw [buildLevels_step l h2, hlv]
    have hext := extendParents_getD (Processor.pairNodes l) (i / 2) hk
    by_cases hpar : i % 2 = 0
    · -- the sibling sits to the right
      have hidx : 2 * (i / 2) = i := by omega
      have hb : 2 * (i / 2) + 1 < l.length := by omega
      have hpn := pairNodes_getD l (i / 2) hb
      rw [hidx] at hpn
      rw [Processor.getProofWalk, Processor.foldProof]
      simp only [hpar, reduceIte, String.reduceEq]
      rw [← hpn, ← hext, ih]
      exact (buildTree_step l h2).symm
    · -- the sibling sits to the left
      have hidx1 : 2 * (i / 2) + 1 = i := by omega
      have hidx : 2 * (i / 2) = i - 1 := by omega
      have hpn := pairNodes_getD l (i / 2) (by omega)
      rw [hidx1, hidx] at hpn
      rw [Processor.getProofWalk, Processor.foldProof]
      simp only [hpar, reduceIte, String.reduceEq]
      rw [← hpn, ← hext, ih]
      exact (buildTree_step l h2).symm
  termination_by l.length

theorem dupLastIfOdd_getD (l : List String) (i : Nat) (h : i < l.length) :
    (dupLastIfOdd l).getD i "" = l.getD i "" := by
  unfold dupLastIfOdd
  split
  · rw [List.getD_eq_getElem?_getD, List.getElem?_append_left h,
      ← List.getD_eq_getElem?_getD]
  · rfl

/-- C6: for every nonempty leaf list E and index i below its length, folding
the inclusion proof GetProof(i) against the leaf E[i] — the sibling hashed on
its recorded side at each step, exactly what VerifyProof does — reproduces
the root of the processor tree built over E. -/
theorem c6_merkle_round_trip (E : List String) (i : Nat) (hne : E ≠ [])
    (hi : i < E.length) :
    Processor.VerifyProof (E.getD i "") (Processor.GetProof E i)
      (Processor.Root E) = true := by
  have hpos : 0 < E.length := List.length_pos.mpr hne
  have hlen : E.length ≤ (dupLastIfOdd E).length := by
    rw [dupLastIfOdd_length]
    split <;> omega
  have hipad : i < (dupLastIfOdd E).length := by omega
  have hshape : (dupLastIfOdd E).length = 1 ∨
      (2 ≤ (dupLastIfOdd E).length ∧ (dupLastIfOdd E).length % 2 = 0) := by
    right
    refine ⟨?_, dupLastIfOdd_length_even E⟩
    have heven := dupLastIfOdd_length_even E
    omega
  have hfold := foldProof_getProofWalk (dupLastIfOdd E) hshape i hipad
  have hemp : E.isEmpty = false := by
    cases E with
    | nil => exact absurd rfl hne
    | cons a t => rfl
  unfold Processor.VerifyProof Processor.GetProof Processor.Root
  rw [if_pos ⟨hne, hipad⟩, hemp]
  simp only [Bool.false_eq_true, if_false]
  rw [← dupLastIfOdd_getD E i hi, hfold]
  exact beq_self_eq_true _

/-- C6 witness: the round trip at a concrete three-leaf batch, index 1. -/
theorem c6_merkle_round_trip_witness :
    Processor.VerifyProof (["aa", "bb", "cc"].getD 1 "")
      (Processor.GetProof ["aa", "bb", "cc"] 1)
      (Processor.Root ["aa", "bb", "cc"]) = true :=
  c6_merkle_round_trip ["aa", "bb", "cc"] 1 (by decide) (by decide)

/-! ## Claim C2: whole-chain verification -/

/-- The fold of the claim: the expected prev-hash starts at the given value
(64 zeros at the top call) and after each event becomes that event
event_hash; the chain is intact when every event prev_hash equals the
expected value at its position. -/
def chainFoldOk (exp : String) : List Api.EventResponse → Prop
  | [] => True
  | e :: rest => e.proof.prev_hash = exp ∧ chainFoldOk e.proof.event_hash rest

/-- The chain-break error entries of that fold, one per mismatching event, in
event order, each naming the offending event facto_id. -/
def chainFoldErrors (exp : String) : List Api.EventResponse → List String
  | [] => []
  | e :: rest =>
    (if e.proof.prev_hash = exp then []
     else [Api.chainErrMsg e.facto_id exp e.proof.prev_hash]) ++
    chainFoldErrors e.proof.event_hash rest

/-- The chain loop computes exactly the fold of the claim: whenever it
returns (no panic), the flag is true iff every prev_hash matches, and the
error list is exactly the mismatch list. -/
theorem chainLoop_spec : ∀ (l : List Api.EventResponse) (exp : String)
    (b : Bool) (errs : List String),
    Api.chainLoop exp l = some (b, errs) →
    (b = true ↔ chainFoldOk exp l) ∧ errs = chainFoldErrors exp l
  | [], exp, b, errs => by
    intro h
    rw [Api.chainLoop] at h
    simp only [Option.some.injEq, Prod.mk.injEq] at h
    obtain ⟨hb, he⟩ := h
    subst hb
    subst he
    simp [chainFoldOk, chainFoldErrors]
  | e :: rest, exp, b, errs => by
    intro h
    rw [Api.chainLoop] at h
    by_cases hm : e.proof.prev_hash = exp
    · rw [if_pos hm] at h
      have ih := chainLoop_spec rest e.proof.event_hash b errs h
      simp [chainFoldOk, chainFoldErrors, hm, ih.1, ih.2]
    · rw [if_neg hm] at h
      split at h
      · rcases hrec : Api.chainLoop e.proof.event_hash rest with _ | ⟨b', errs'⟩
        · rw [hrec] at h
          exact absurd h (by simp)
        · rw [hrec] at h
          simp only [Option.some.injEq, Prod.mk.injEq] at h
          obtain ⟨hb, he⟩ := h
          subst hb
          subst he
          have ih := chainLoop_spec rest e.proof.event_hash b' errs' hrec
          constructor
          · simp [chainFoldOk, hm]
          · simp [chainFoldErrors, hm, ih.2]
      · exact absurd h (by simp)

/-- C2: whenever the chain-verification handler produces a report (the
session is nonempty and no slice panics), chain_integrity_valid is true iff,
over the events sorted ascending by completed_at, the fold that starts the
expected prev-hash at 64 zeros and advances it to each event_hash finds
every prev_hash equal to the expectation; and the report errors are the
hash errors, then the signature errors, then exactly one structured entry
naming the facto_id of each mismatching event, in order. -/
theorem c2_chain_verification (sha3hex : String → String)
    (edv : List Nat → List Nat → List Nat → Bool)
    (events : List Api.EventResponse) (resp : Api.ChainVerifyResponse)
    (h : Api.verifyChainModel sha3hex edv events = some resp) :
    (resp.checks.chain_integrity_valid = true ↔
      chainFoldOk zeros64 (Api.sortByCompletedAt events)) ∧
    resp.errors =
      ((Api.sortByCompletedAt events).filter
          (fun ev => ¬ Api.verifyHash sha3hex ev)).map
        (fun ev => "Hash invalid for event: " ++ ev.facto_id) ++
      ((Api.sortByCompletedAt events).filter
          (fun ev => ¬ Api.verifySignature edv ev)).map
        (fun ev => "Signature invalid for event: " ++ ev.facto_id) ++
      chainFoldErrors zeros64 (Api.sortByCompletedAt events) := by
  match events with
  | [] =>
    rw [Api.verifyChainModel] at h
    exact absurd h (by simp)
  | e :: rest =>
    rw [Api.verifyChainModel] at h
    rcases hs : Api.sortByCompletedAt (e :: rest) with _ | ⟨s0, srest⟩
    · rw [hs] at h
      exact absurd h (by simp)
    · rw [hs] at h
      dsimp only at h
      rcases hcl : Api.chainLoop zeros64 (s0 :: srest) with _ | ⟨chainOk, chainErrs⟩
      · rw [hcl] at h
        exact absurd h (by simp)
      · rw [hcl] at h
        simp only [Option.some.injEq] at h
        have hspec := chainLoop_spec (s0 :: srest) zeros64 chainOk chainErrs hcl
        subst h
        exact ⟨hspec.1, by rw [hspec.2]⟩

/-- First event of the C2 witness chain: prev_hash all zeros. -/
def c2e1 : Api.EventResponse :=
  { facto_id := "ft-1"
    agent_id := "agent-1"
    session_id := "session-aa"
    parent_facto_id := none
    action_type := "llm_call"
    status := "success"
    input_data := []
    output_data := []
    execution_meta :=
      { model_id := none, model_hash := none, temperature := none
        seed := none, max_tokens := none, tool_calls := []
        sdk_version := "0.1.0", sdk_language := "typescript", tags := [] }
    proof :=
      { signature := "", public_key := "", prev_hash := zeros64
        event_hash := "ab" }
    started_at := 0
    completed_at := 1 }

/-- Second event of the C2 witness chain: prev_hash links to the first. -/
def c2e2 : Api.EventResponse :=
  { facto_id := "ft-2"
    agent_id := "agent-1"
    session_id := "session-aa"
    parent_facto_id := none
    action_type := "llm_call"
    status := "success"
    input_data := []
    output_data := []
    execution_meta :=
      { model_id := none, model_hash := none, temperature := none
        seed := none, max_tokens := none, tool_calls := []
        sdk_version := "0.1.0", sdk_language := "typescript", tags := [] }
    proof :=
      { signature := "", public_key := "", prev_hash := "ab"
        event_hash := "cd" }
    started_at := 1
    completed_at := 2 }

/-- The report the chain handler produces on that session, with the hash and
signature oracles constantly failing. -/
def c2Resp : Api.ChainVerifyResponse :=
  { valid := false
    event_count := 2
    checks :=
      { all_hashes_valid := false
        all_signatures_valid := false
        chain_integrity_valid := true }
    first_event := "ft-1"
    last_event := "ft-2"
    session_hash :=
      "88d4266fd4e6338d13b845fcf289579d209c897823b9217da3e161936f031589"
    errors :=
      ["Hash invalid for event: ft-1", "Hash invalid for event: ft-2",
       "Signature invalid for event: ft-1",
       "Signature invalid for event: ft-2"] }

/-- C2 witness: the theorem applied to the concrete intact two-event chain. -/
theorem c2_chain_verification_witness :
    (c2Resp.checks.chain_integrity_valid = true ↔
      chainFoldOk zeros64 (Api.sortByCompletedAt [c2e1, c2e2])) ∧
    c2Resp.errors =
      ((Api.sortByCompletedAt [c2e1, c2e2]).filter
          (fun ev => ¬ Api.verifyHash (fun _ => "") ev)).map
        (fun ev => "Hash invalid for event: " ++ ev.facto_id) ++
      ((Api.sortByCompletedAt [c2e1, c2e2]).filter
          (fun ev => ¬ Api.verifySignature (fun _ _ _ => false) ev)).map
        (fun ev => "Signature invalid for event: " ++ ev.facto_id) ++
      chainFoldErrors zeros64 (Api.sortByCompletedAt [c2e1, c2e2]) :=
  c2_chain_verification (fun _ => "") (fun _ _ _ => false) [c2e1, c2e2]
    c2Resp (by decide)

/-! ## Claim C10: the 16-byte slices in the chain-break message -/

theorem insertByCompleted_mem (x e : Api.EventResponse)
    (l : List Api.EventResponse) :
    x ∈ Api.insertByCompleted e l ↔ x = e ∨ x ∈ l := by
  induction l with
  | nil => simp [Api.insertByCompleted]
  | cons y ys ih =>
    rw [Api.insertByCompleted]
    split
    · simp [List.mem_cons]
    · simp only [List.mem_cons, ih]
      tauto

theorem sortByCompletedAt_mem (x : Api.EventResponse)
    (l : List Api.EventResponse) :
    x ∈ Api.sortByCompletedAt l → x ∈ l := by
  induction l with
  | nil =>
    intro h
    rw [Api.sortByCompletedAt] at h
    exact h
  | cons y ys ih =>
    intro h
    rw [Api.sortByCompletedAt] at h
    rcases (insertByCompleted_mem x y (Api.sortByCompletedAt ys)).mp h with h2 | h2
    · simp [h2]
    · exact List.mem_cons_of_mem y (ih h2)

theorem insertByCompleted_length (e : Api.EventResponse)
    (l : List Api.EventResponse) :
    (Api.insertByCompleted e l).length = l.length + 1 := by
  induction l with
  | nil => rfl
  | cons y ys ih =>
    rw [Api.insertByCompleted]
    split <;> simp [ih]

theorem sortByCompletedAt_length (l : List Api.EventResponse) :
    (Api.sortByCompletedAt l).length = l.length := by
  induction l with
  | nil => rfl
  | cons y ys ih =>
    rw [Api.sortByCompletedAt, insertByCompleted_length, ih, List.length_cons]

/-- The chain loop cannot panic when the expectation and every prev_hash and
event_hash in the list are at least 16 characters long. -/
theorem chainLoop_total (l : List Api.EventResponse) (exp : String)
    (hexp : 16 ≤ exp.length)
    (hl : ∀ e ∈ l, 16 ≤ e.proof.prev_hash.length ∧
      16 ≤ e.proof.event_hash.length) :
    (Api.chainLoop exp l).isSome := by
  induction l generalizing exp with
  | nil => rw [Api.chainLoop]; rfl
  | cons e rest ih =>
    have he := hl e (by simp)
    have hrest : ∀ x ∈ rest, 16 ≤ x.proof.prev_hash.length ∧
        16 ≤ x.proof.event_hash.length :=
      fun x hx => hl x (List.mem_cons_of_mem e hx)
    have ihrest := ih e.proof.event_hash he.2 hrest
    rw [Api.chainLoop]
    by_cases hm : e.proof.prev_hash = exp
    · rw [if_pos hm]
      exact ihrest
    · rw [if_neg hm, if_pos ⟨hexp, he.1⟩]
      rcases hrec : Api.chainLoop e.proof.event_hash rest with _ | ⟨b, errs⟩
      · rw [hrec] at ihrest
        exact absurd ihrest (by simp)
      · rfl

/-- C10 counterexample event: a valid head whose event_hash is only two
characters long. Its own prev_hash is the full 64-zero string. -/
def c10ShortHashEvent : Api.EventResponse :=
  { facto_id := "ft-short"
    agent_id := "agent-1"
    session_id := "session-aa"
    parent_facto_id := none
    action_type := "llm_call"
    status := "success"
    input_data := []
    output_data := []
    execution_meta :=
      { model_id := none, model_hash := none, temperature := none
        seed := none, max_tokens := none, tool_calls := []
        sdk_version := "0.1.0", sdk_language := "typescript", tags := [] }
    proof :=
      { signature := "", public_key := "", prev_hash := zeros64
        event_hash := "ab" }
    started_at := 0
    completed_at := 1 }

/-- C10 counterexample event: a 16-character prev_hash that mismatches the
two-character expectation left by the previous event. -/
def c10MismatchEvent : Api.EventResponse :=
  { facto_id := "ft-mismatch"
    agent_id := "agent-1"
    session_id := "session-aa"
    parent_facto_id := none
    action_type := "llm_call"
    status := "success"
    input_data := []
    output_data := []
    execution_meta :=
      { model_id := none, model_hash := none, temperature := none
        seed := none, max_tokens := none, tool_calls := []
        sdk_version := "0.1.0", sdk_language := "typescript", tags := [] }
    proof :=
      { signature := "", public_key := "", prev_hash := "ffffffffffffffff"
        event_hash := "cd" }
    started_at := 1
    completed_at := 2 }

/-- C10 counterexample: the precondition of the claim — every event
prev_hash at least 16 characters — does NOT make the slicing safe. In this
session both prev_hash values are 16 characters or longer, yet the handler
panics (none): the mismatch at the second event slices the EXPECTED value,
which is the two-character event_hash of the first event. -/
theorem c10_prev_hash_precondition_insufficient :
    (∀ e ∈ [c10ShortHashEvent, c10MismatchEvent],
      16 ≤ e.proof.prev_hash.length) ∧
    Api.verifyChainModel (fun _ => "") (fun _ _ _ => false)
      [c10ShortHashEvent, c10MismatchEvent] = none := by
  constructor
  · decide
  · decide

/-- C10 single-event session whose prev_hash is two characters and differs
from the 64-zero expectation: the error-message slice of prev_hash panics. -/
def c10ShortPrevEvent : Api.EventResponse :=
  { facto_id := "ft-shortprev"
    agent_id := "agent-1"
    session_id := "session-aa"
    parent_facto_id := none
    action_type := "llm_call"
    status := "success"
    input_data := []
    output_data := []
    execution_meta :=
      { model_id := none, model_hash := none, temperature := none
        seed := none, max_tokens := none, tool_calls := []
        sdk_version := "0.1.0", sdk_language := "typescript", tags := [] }
    proof :=
      { signature := "", public_key := "", prev_hash := "ff"
        event_hash := "cd" }
    started_at := 0
    completed_at := 1 }

/-- C10 amended: the slicing is safe — the handler always returns a report on
a nonempty session — when every event prev_hash AND every event event_hash
(tomorrow an expectation) is at least 16 characters long; and there is a
session with an event whose prev_hash is shorter than 16 characters and
mismatching on which the handler panics instead of reporting. -/
theorem c10_slicing_safety :
    (∀ (sha3hex : String → String)
      (edv : List Nat → List Nat → List Nat → Bool)
      (events : List Api.EventResponse), events ≠ [] →
      (∀ e ∈ events, 16 ≤ e.proof.prev_hash.length ∧
        16 ≤ e.proof.event_hash.length) →
      (Api.verifyChainModel sha3hex edv events).isSome) ∧
    Api.verifyChainModel (fun _ => "") (fun _ _ _ => false)
      [c10ShortPrevEvent] = none := by
  constructor
  · intro sha3hex edv events hne hlens
    match events, hne with
    | e :: rest, _ =>
      rw [Api.verifyChainModel]
      rcases hs : Api.sortByCompletedAt (e :: rest) with _ | ⟨s0, srest⟩
      · have := sortByCompletedAt_length (e :: rest)
        rw [hs] at this
        simp at this
      · dsimp only
        have hsortlens : ∀ x ∈ (s0 :: srest), 16 ≤ x.proof.prev_hash.length ∧
            16 ≤ x.proof.event_hash.length := by
          intro x hx
          have : x ∈ Api.sortByCompletedAt (e :: rest) := by rw [hs]; exact hx
          exact hlens x (sortByCompletedAt_mem x (e :: rest) this)
        have htot := chainLoop_total (s0 :: srest) zeros64 (by decide) hsortlens
        rcases hcl : Api.chainLoop zeros64 (s0 :: srest) with _ | ⟨b, errs⟩
        · rw [hcl] at htot
          exact absurd htot (by simp)
        · rfl
  · decide

/-- C10 witness: the amended safety at a concrete session whose hashes are
long enough. -/
theorem c10_slicing_safety_witness :
    (Api.verifyChainModel (fun _ => "") (fun _ _ _ => false)
      [{ facto_id := "ft-ok"
         agent_id := "agent-1"
         session_id := "session-aa"
         parent_facto_id := none
         action_type := "llm_call"
         status := "success"
         input_data := []
         output_data := []
         execution_meta :=
           { model_id := none, model_hash := none, temperature := none
             seed := none, max_tokens := none, tool_calls := []
             sdk_version := "0.1.0", sdk_language := "typescript"
             tags := [] }
         proof :=
           { signature := "", public_key := "", prev_hash := zeros64
             event_hash := "aaaaaaaaaaaaaaaa" }
         started_at := 0
         completed_at := 1 }]).isSome :=
  c10_slicing_safety.1 (fun _ => "") (fun _ _ _ => false) _
    (List.cons_ne_nil _ _) (by decide)

/-! ## Claim C3: single-event verification never throws -/

/-- C3: POST /v1/verify returns the pair (hash_valid, signature_valid) of
total boolean checks — no failure mode throws. hash_valid is true exactly
when the hex SHA3-256 of the recomputed canonical form equals the recorded
event_hash. signature_valid is true exactly when the public key base64-
decodes to 32 bytes, the signature base64-decodes to 64 bytes, AND Ed25519
verification of the canonical bytes succeeds — so malformed base64 or a
wrong decoded length yields false, never an error, and otherwise the pair
carries the Ed25519 result. Stated for every hex-SHA3 oracle and every
Ed25519 oracle. -/
theorem c3_verify_event_pair (sha3hex : String → String)
    (edv : List Nat → List Nat → List Nat → Bool) (e : Api.EventResponse) :
    ((Api.verifyEventModel sha3hex edv e).1 = true ↔
      sha3hex (Api.buildCanonicalForm e) = e.proof.event_hash) ∧
    ((Api.verifyEventModel sha3hex edv e).2 = true ↔
      ∃ pubKeyBytes sigBytes,
        base64Decode e.proof.public_key = some pubKeyBytes ∧
        pubKeyBytes.length = 32 ∧
        base64Decode e.proof.signature = some sigBytes ∧
        sigBytes.length = 64 ∧
        edv pubKeyBytes (strBytes (Api.buildCanonicalForm e)) sigBytes =
          true) := by
  constructor
  · rw [Api.verifyEventModel]
    dsimp only
    rw [Api.verifyHash]
    exact beq_iff_eq
  · rw [Api.verifyEventModel]
    dsimp only
    rw [Api.verifySignature]
    rcases hpk : base64Decode e.proof.public_key with _ | pk
    · simp only [Bool.false_eq_true, false_iff, reduceCtorEq]
      rintro ⟨pk2, sig2, hc, -⟩
      exact absurd hc (by simp)
    · dsimp only
      by_cases hlen : pk.length ≠ 32
      · rw [if_pos hlen]
        simp only [Bool.false_eq_true, false_iff]
        rintro ⟨pk2, sig2, hpk2, hlen2, -⟩
        simp only [Option.some.injEq] at hpk2
        exact hlen (hpk2 ▸ hlen2)
      · rw [if_neg hlen]
        push_neg at hlen
        rcases hsig : base64Decode e.proof.signature with _ | sig
        · simp only [Bool.false_eq_true, false_iff, reduceCtorEq]
          rintro ⟨pk2, sig2, -, -, hc, -⟩
          exact absurd hc (by simp)
        · dsimp only
          by_cases hslen : sig.length ≠ 64
          · rw [if_pos hslen]
            simp only [Bool.false_eq_true, false_iff]
            rintro ⟨pk2, sig2, -, -, hsig2, hslen2, -⟩
            simp only [Option.some.injEq] at hsig2
            exact hslen (hsig2 ▸ hslen2)
          · rw [if_neg hslen]
            push_neg at hslen
            constructor
            · intro hv
              exact ⟨pk, sig, rfl, hlen, rfl, hslen, hv⟩
            · rintro ⟨pk2, sig2, hpk2, -, hsig2, -, hv⟩
              simp only [Option.some.injEq] at hpk2 hsig2
              rw [← hpk2, ← hsig2] at hv
              exact hv

/-! ## Claims C4 and C7: flush semantics -/

theorem map_getLastD {α β : Type} (f : α → β) :
    ∀ (l : List α) (d : α), f (l.getLastD d) = (l.map f).getLastD (f d)
  | [], _ => rfl
  | x :: xs, d => by
    rw [List.getLastD_cons, List.map_cons, List.getLastD_cons]
    exact map_getLastD f xs x

/-- C4: for a non-empty batch, a failed three-projection StoreBatch NAKs
every buffered message, ACKs none, and writes no Merkle-root record; a
successful StoreBatch writes the Merkle-root record (root over the event
hashes in buffer order, the batch size, the first and last facto_id, the
leaf list) and ACKs every message with no NAK — and the Merkle write
outcome merkleOk changes nothing else: the stored events stay stored
(StoreBatch already returned success) and no NAK is sent either way. -/
theorem c4_flush_store_outcomes (storeOk merkleOk : Bool)
    (st : Processor.ConsumerState) (hne : st.events ≠ []) :
    (storeOk = false →
      (Processor.flush storeOk merkleOk st).1.storeBatchCalled = true ∧
      (Processor.flush storeOk merkleOk st).1.nakked = st.messages ∧
      (Processor.flush storeOk merkleOk st).1.acked = [] ∧
      (Processor.flush storeOk merkleOk st).1.merkleWriteAttempted = none ∧
      (Processor.flush storeOk merkleOk st).1.merklePersisted = false) ∧
    (storeOk = true →
      (Processor.flush storeOk merkleOk st).1.storeBatchCalled = true ∧
      (Processor.flush storeOk merkleOk st).1.acked = st.messages ∧
      (Processor.flush storeOk merkleOk st).1.nakked = [] ∧
      (Processor.flush storeOk merkleOk st).1.merkleWriteAttempted = some
        { root_hash :=
            Processor.Root (st.events.map (fun ev => ev.proof.event_hash))
          event_count := st.events.length
          first_facto_id := (st.events.map (fun ev => ev.facto_id)).headD ""
          last_facto_id := (st.events.map (fun ev => ev.facto_id)).getLastD ""
          event_hashes :=
            st.events.map (fun ev => ev.proof.event_hash) } ∧
      (Processor.flush storeOk merkleOk st).1.merklePersisted = merkleOk) := by
  match hev : st.events, hne with
  | e0 :: erest, _ =>
    constructor
    · intro hfail
      subst hfail
      rw [Processor.flush, hev]
      simp
    · intro hok
      subst hok
      have hlast : (erest.getLastD e0).facto_id =
          ((e0 :: erest).map (fun ev => ev.facto_id)).getLastD "" := by
        simp only [List.map_cons, List.getLastD_cons]
        exact map_getLastD (fun ev => ev.facto_id) erest e0
      rw [Processor.flush, hev]
      simp at hlast
      simp [hlast]

/-- A concrete buffered event for the flush witnesses. -/
def c4Event : Processor.FactoEvent :=
  { facto_id := "ft-1"
    agent_id := "agent-1"
    session_id := "session-aa"
    parent_facto_id := none
    action_type := "llm_call"
    status := "success"
    input_data := []
    output_data := []
    execution_meta :=
      { model_id := none, model_hash := none, temperature := none
        seed := none, max_tokens := none, tool_calls := []
        sdk_version := "0.1.0", sdk_language := "typescript", tags := [] }
    proof :=
      { signature := "", public_key := "", prev_hash := zeros64
        event_hash := "ab" }
    started_at := 0
    completed_at := 1 }

/-- A concrete consumer state holding one event and its message. -/
def c4State : Processor.ConsumerState :=
  { events := [c4Event], messages := [10] }

/-- C4 witness: a successful StoreBatch with a FAILED Merkle write still ACKs
every message and NAKs none. -/
theorem c4_flush_store_outcomes_witness :
    (Processor.flush true false c4State).1.storeBatchCalled = true ∧
    (Processor.flush true false c4State).1.acked = c4State.messages ∧
    (Processor.flush true false c4State).1.nakked = [] ∧
    (Processor.flush true false c4State).1.merkleWriteAttempted = some
      { root_hash :=
          Processor.Root (c4State.events.map (fun ev => ev.proof.event_hash))
        event_count := c4State.events.length
        first_facto_id := (c4State.events.map (fun ev => ev.facto_id)).headD ""
        last_facto_id :=
          (c4State.events.map (fun ev => ev.facto_id)).getLastD ""
        event_hashes :=
          c4State.events.map (fun ev => ev.proof.event_hash) } ∧
    (Processor.flush true false c4State).1.merklePersisted = false :=
  (c4_flush_store_outcomes true false c4State
    (by rw [show c4State.events = [c4Event] from rfl]; exact List.cons_ne_nil _ _)).2 rfl

/-- C7: every flush leaves both buffers empty (given the consumer invariant
that the two buffers have equal length — handleMessage appends to both
together), whatever the storage outcomes; and a flush that finds an empty
event buffer is a no-op: no StoreBatch call, no Merkle-root write, no ACK,
no NAK, state unchanged. -/
theorem c7_flush_clears_buffers (storeOk merkleOk : Bool)
    (st : Processor.ConsumerState)
    (hlen : st.messages.length = st.events.length) :
    ((Processor.flush storeOk merkleOk st).2.events = [] ∧
     (Processor.flush storeOk merkleOk st).2.messages = []) ∧
    (st.events = [] →
      (Processor.flush storeOk merkleOk st).1 =
        { storeBatchCalled := false, acked := [], nakked := [],
          merkleWriteAttempted := none, merklePersisted := false } ∧
      (Processor.flush storeOk merkleOk st).2 = st) := by
  match hev : st.events with
  | [] =>
    have hme : st.messages = [] := by
      rw [hev] at hlen
      exact List.eq_nil_of_length_eq_zero hlen
    rw [Processor.flush, hev]
    simp [hme, hev]
  | e0 :: erest =>
    rw [Processor.flush, hev]
    cases storeOk <;> simp

/-- C7 witness: the clearing at the concrete one-event state, after a failed
StoreBatch. -/
theorem c7_flush_clears_buffers_witness :
    ((Processor.flush false true c4State).2.events = [] ∧
     (Processor.flush false true c4State).2.messages = []) ∧
    (c4State.events = [] →
      (Processor.flush false true c4State).1 =
        { storeBatchCalled := false, acked := [], nakked := [],
          merkleWriteAttempted := none, merklePersisted := false } ∧
      (Processor.flush false true c4State).2 = c4State) :=
  c7_flush_clears_buffers false true c4State rfl

/-! ## Claim C8: the session walk loses data -/

theorem lookupField_execMeta (x : Api.EventResponse) :
    lookupField "execution_meta" (Api.canonicalMap x) =
      some (Json.obj (Api.canonicalExecMeta x)) := by
  rw [Api.canonicalMap]
  simp [lookupField, String.reduceEq]

theorem lookupField_seed (x : Api.EventResponse) :
    lookupField "seed" (Api.canonicalExecMeta x) =
      some (match x.execution_meta.seed with
            | some n => Json.num n
            | none => Json.null) := by
  rw [Api.canonicalExecMeta]
  cases x.execution_meta.model_id <;>
    simp [lookupField, String.reduceEq]

/-- C8: reading an event back through the session walk forces
execution_meta.model_hash, seed and max_tokens to null and tool_calls to the
empty list, whatever was stored (the projection has no such columns);
buildEventResponse — shared by every read path — returns null for every
optional field whose stored value is the zero value; hence store-then-read
is not the identity, and the canonical mapping recomputed from a
session-walk result differs from the canonical mapping of the event as
signed whenever the signed seed was non-null (including seed 0: the
canonical forms carry seed null against the signed seed number). -/
theorem c8_session_readback_lossy (f32 : Rat → Rat)
    (parseObj : String → Option (List (String × Json)))
    (parseArr : String → Option (List Json)) (e : Processor.FactoEvent)
    (hpa : parseArr "[]" = some []) :
    (Api.sessionReadBack f32 parseObj parseArr e).execution_meta.model_hash
      = none ∧
    (Api.sessionReadBack f32 parseObj parseArr e).execution_meta.seed
      = none ∧
    (Api.sessionReadBack f32 parseObj parseArr e).execution_meta.max_tokens
      = none ∧
    (Api.sessionReadBack f32 parseObj parseArr e).execution_meta.tool_calls
      = [] ∧
    (∀ (factoID agentID sessionID parentFactoID actionType status inputData
        outputData modelID modelHash : String) (temperature : Rat)
        (seed maxTokens : Int) (toolCalls sdkVersion sdkLanguage : String)
        (tags : List (String × String))
        (signature publicKey prevHash eventHash : String)
        (startedAt completedAt : Int),
      let r := Api.buildEventResponse parseObj parseArr factoID agentID
        sessionID parentFactoID actionType status inputData outputData
        modelID modelHash temperature seed maxTokens toolCalls sdkVersion
        sdkLanguage tags signature publicKey prevHash eventHash startedAt
        completedAt
      (temperature = 0 → r.execution_meta.temperature = none) ∧
      (seed = 0 → r.execution_meta.seed = none) ∧
      (maxTokens = 0 → r.execution_meta.max_tokens = none) ∧
      (modelID = "" → r.execution_meta.model_id = none) ∧
      (modelHash = "" → r.execution_meta.model_hash = none) ∧
      (parentFactoID = "" → r.parent_facto_id = none)) ∧
    (∀ n : Int, e.execution_meta.seed = some n →
      (Api.sessionReadBack f32 parseObj parseArr e).execution_meta.seed ≠
        e.execution_meta.seed ∧
      Api.canonicalMap (Api.sessionReadBack f32 parseObj parseArr e) ≠
        Api.canonicalMap (Processor.FactoEvent.toEventResponse e)) := by
  have hseednone :
      (Api.sessionReadBack f32 parseObj parseArr e).execution_meta.seed
        = none := rfl
  refine ⟨rfl, hseednone, rfl, ?_, ?_, ?_⟩
  · show (parseArr "[]").getD [] = []
    rw [hpa]
    rfl
  · intro factoID agentID sessionID parentFactoID actionType status inputData
      outputData modelID modelHash temperature seed maxTokens toolCalls
      sdkVersion sdkLanguage tags signature publicKey prevHash eventHash
      startedAt completedAt
    refine ⟨?_, ?_, ?_, ?_, ?_, ?_⟩ <;>
      (intro h; subst h; simp [Api.buildEventResponse])
  · intro n hseed
    constructor
    · rw [hseednone, hseed]
      simp
    · intro heq
      have h1 := congrArg (lookupField "execution_meta") heq
      rw [lookupField_execMeta, lookupField_execMeta] at h1
      simp only [Option.some.injEq, Json.obj.injEq] at h1
      have h2 := congrArg (lookupField "seed") h1
      rw [lookupField_seed, lookupField_seed] at h2
      rw [hseednone] at h2
      have horig : (Processor.FactoEvent.toEventResponse e).execution_meta.seed
          = some n := hseed
      rw [horig] at h2
      simp at h2

/-- A concrete event signed with seed 42, for the C8 witness. -/
def c8Event : Processor.FactoEvent :=
  { facto_id := "ft-seeded"
    agent_id := "agent-1"
    session_id := "session-aa"
    parent_facto_id := none
    action_type := "llm_call"
    status := "success"
    input_data := []
    output_data := []
    execution_meta :=
      { model_id := none, model_hash := none, temperature := none
        seed := some 42, max_tokens := none, tool_calls := []
        sdk_version := "0.1.0", sdk_language := "typescript", tags := [] }
    proof :=
      { signature := "", public_key := "", prev_hash := zeros64
        event_hash := "ab" }
    started_at := 0
    completed_at := 1 }

/-- C8 witness: at the concrete seeded event — with the float narrowing the
identity and concrete parse oracles — the read-back seed is null, the
canonical mapping differs from the signed one, and so do the serialized
canonical strings. -/
theorem c8_session_readback_lossy_witness :
    (Api.sessionReadBack (fun q => q) (fun _ => none) (fun _ => some [])
      c8Event).execution_meta.seed = none ∧
    Api.canonicalMap (Api.sessionReadBack (fun q => q) (fun _ => none)
      (fun _ => some []) c8Event) ≠
      Api.canonicalMap (Processor.FactoEvent.toEventResponse c8Event) ∧
    Api.buildCanonicalForm (Api.sessionReadBack (fun q => q) (fun _ => none)
      (fun _ => some []) c8Event) ≠
      Api.buildCanonicalForm (Processor.FactoEvent.toEventResponse c8Event) :=
  ⟨(c8_session_readback_lossy (fun q => q) (fun _ => none) (fun _ => some [])
      c8Event rfl).2.1,
   ((c8_session_readback_lossy (fun q => q) (fun _ => none) (fun _ => some [])
      c8Event rfl).2.2.2.2.2 42 rfl).2,
   by decide⟩
